import Mathlib

set_option autoImplicit false

/-!
Verification of the expectation-tracking core of the airflow-event-plugins
repository, embedded from plugins/event_plugins/common/storage/event_message.py.

The record store is modelled as a list of rows; each CRUD operation of the
class EventMessageCRUD becomes a pure function from that list to a new list
(or to Except when the Python code can raise).  Message patterns are JSON
objects modelled as association lists of string keys; the storage layer of the
repository serializes patterns with sorted keys, so pattern comparison is
canonical equality, i.e. equality after sorting by key.  Timestamps are
modelled as structured calendar datetimes compared through a linearisation of
their fields.
-/

/-- A flat JSON scalar value, as appears in the fields of a wanted message. -/
inductive JVal where
  | jnull : JVal
  | jbool : Bool → JVal
  | jnum : Int → JVal
  | jstr : String → JVal
deriving DecidableEq

/-- A wanted-message pattern: a JSON object given as an association list. -/
abbrev Msg := List (String × JVal)

/-- Lexicographic comparison of two character lists by code point. -/
def charsLe : List Char → List Char → Bool
  | [], _ => true
  | _ :: _, [] => false
  | a :: as, b :: bs =>
    if a.toNat < b.toNat then true
    else if b.toNat < a.toNat then false
    else charsLe as bs

/-- Lexicographic comparison of two strings by code point. -/
def strLe (a b : String) : Bool := charsLe a.data b.data

/-- Insert one key/value pair into a key-sorted association list. -/
def insKey (p : String × JVal) : Msg → Msg
  | [] => [p]
  | q :: qs => if strLe p.1 q.1 then p :: q :: qs else q :: insKey p qs

/-- Canonical form of a pattern: its fields sorted by key.  Models the
sorted-key serialization the storage layer of the repository applies to the
msg column, which makes pattern equality independent of field order. -/
def canon : Msg → Msg
  | [] => []
  | p :: ps => insKey p (canon ps)

/-- Canonical equality of two patterns. -/
def msgEq (a b : Msg) : Bool := decide (canon a = canon b)

/-- Canonical membership of a pattern in a list of patterns. -/
def msgIn (m : Msg) (l : List Msg) : Bool := l.any (fun x => msgEq m x)

/-- A timezone-aware datetime, modelled by its calendar fields at second
granularity (the granularity at which the repository states deadlines). -/
structure DT where
  year : Int
  month : Int
  day : Int
  hour : Int
  minute : Int
  second : Int
deriving DecidableEq

/-- Linearisation of a datetime used for comparison: for datetimes with
fields in their calendar ranges this order agrees with chronological order. -/
def DT.key (t : DT) : Int :=
  ((((t.year * 13 + t.month) * 32 + t.day) * 24 + t.hour) * 60 + t.minute) * 60 + t.second

/-- The strict order on datetimes used by the timeout comparisons. -/
def DT.lt (a b : DT) : Bool := decide (DT.key a < DT.key b)

/-- Gregorian leap-year rule. -/
def isLeapYear (y : Int) : Bool := (y % 4 == 0 && y % 100 != 0) || y % 400 == 0

/-- Number of days of a calendar month. -/
def daysInMonth (y m : Int) : Int :=
  if m = 2 then (if isLeapYear y then 29 else 28)
  else if m = 4 ∨ m = 6 ∨ m = 9 ∨ m = 11 then 30
  else 31

/-- A datetime whose fields lie in their calendar ranges. -/
def DT.valid (t : DT) : Prop :=
  1 ≤ t.month ∧ t.month ≤ 12 ∧ 1 ≤ t.day ∧ t.day ≤ daysInMonth t.year t.month ∧
  0 ≤ t.hour ∧ t.hour ≤ 23 ∧ 0 ≤ t.minute ∧ t.minute ≤ 59 ∧
  0 ≤ t.second ∧ t.second ≤ 59

instance (t : DT) : Decidable (DT.valid t) := by
  unfold DT.valid
  infer_instance

/-- Modelled from the spec: the Timeout Policy for daily frequency returns the
end of the calendar day of its current time, at 23:59:59 (the policy code,
reached through factory.plugin_factory(...).msg_handler(...).timeout(), is not
under src/). -/
def endOfDay (t : DT) : DT := { t with hour := 23, minute := 59, second := 59 }

/-- Modelled from the spec: the Timeout Policy for monthly frequency returns
the end of the calendar month of its current time, at 23:59:59 (the policy
code is not under src/). -/
def endOfMonth (t : DT) : DT :=
  { t with day := daysInMonth t.year t.month, hour := 23, minute := 59, second := 59 }

/-- Modelled from the spec: per-frequency deadline computation of the Timeout
Policy, evaluated at the own current time of the policy. -/
def computeDeadline (frequency : String) (now : DT) : DT :=
  if frequency = "M" then endOfMonth now else endOfDay now

/-- A received payload: any JSON value a caller may store in last_receive. -/
inductive PVal where
  | pnum : Int → PVal
  | pstr : String → PVal
  | pbool : Bool → PVal
  | pobj : Msg → PVal
deriving DecidableEq

/-- Whether a payload is a zero-equivalent (falsy in Python) value. -/
def PVal.falsy : PVal → Bool
  | .pnum n => n == 0
  | .pstr s => s == ""
  | .pbool b => !b
  | .pobj m => m.isEmpty

/-- One row of the event_plugins table (class EventMessage). -/
structure EventMessage where
  name : String
  msg : Msg
  source_type : String
  frequency : String
  last_receive : Option PVal
  last_receive_time : Option DT
  timeout : DT
deriving DecidableEq

/-- The record store: the rows of the event_plugins table. -/
abbrev DB := List EventMessage

/-- EventMessage.available_frequency. -/
def available_frequency : List String := ["D", "M"]

/-- EventMessage.available_source_type. -/
def available_source_type : List String := ["base", "kafka"]

/-- Constructing an EventMessage row: the sqlalchemy validators on
source_type and frequency fire while the constructor assigns the fields
(source_type is assigned before frequency), raising ValueError on a value
outside the available list. -/
def mkEventMessage (name : String) (msg : Msg) (source_type frequency : String)
    (last_receive : Option PVal) (last_receive_time : Option DT) (timeout : DT) :
    Except String EventMessage :=
  if source_type ∈ available_source_type then
    if frequency ∈ available_frequency then
      .ok { name := name, msg := msg, source_type := source_type, frequency := frequency,
            last_receive := last_receive, last_receive_time := last_receive_time,
            timeout := timeout }
    else .error "frequency should be in available_frequency"
  else .error "source_type should be in available_source_type"

/-- The two values of event_plugins.common.status.DBStatus used by status. -/
inductive DBStatus where
  | ALL_RECEIVED : DBStatus
  | NOT_ALL_RECEIVED : DBStatus
deriving DecidableEq

/-- Python dict lookup of one key of a pattern. -/
def lookupKey (k : String) : Msg → Option JVal
  | [] => none
  | p :: rest => if p.1 = k then some p.2 else lookupKey k rest

/-- The string a JSON value contributes when used as a frequency: a JSON
string is the string itself, any non-string value compares unequal to every
available frequency, modelled by the empty string. -/
def jvalAsFreq : JVal → String
  | .jstr s => s
  | _ => ""

/-- The frequency field of a pattern, as read by msg bracket frequency. -/
def msgFrequency (m : Msg) : String := jvalAsFreq ((lookupKey "frequency" m).getD JVal.jnull)

/-- Modelled from the spec: the deadline the Timeout Policy returns for a
pattern, as a function of the own current time of the policy (EventMessageCRUD
.get_timeout delegates to the plugin factory, whose code is not under src/). -/
def policyTimeout (policy_now : DT) (m : Msg) : DT := computeDeadline (msgFrequency m) policy_now

namespace EventMessageCRUD

/-- EventMessageCRUD.get_sensor_messages: the rows of one sensor. -/
def get_sensor_messages (sensor_name : String) (db : DB) : DB :=
  db.filter (fun r => r.name == sensor_name)

/-- One record as built inside initialize and update_msgs: an EventMessage
with the sensor name, the pattern, the source_type of the instance, the
frequency field of the pattern, empty received fields, and the policy deadline.
The policy is passed as the function gt, standing for get_timeout. -/
def newRecord (source_type sensor_name : String) (gt : Msg → DT) (m : Msg) :
    Except String EventMessage :=
  match lookupKey "frequency" m with
  | none => .error "KeyError frequency"
  | some v => mkEventMessage sensor_name m source_type (jvalAsFreq v) none none (gt m)

/-- Building the records for a list of patterns, stopping at the first
validation failure (in which case nothing is committed). -/
def mkRecords (source_type sensor_name : String) (gt : Msg → DT) :
    List Msg → Except String (List EventMessage)
  | [] => .ok []
  | m :: ms =>
    match newRecord source_type sensor_name gt m with
    | .error e => .error e
    | .ok r =>
      match mkRecords source_type sensor_name gt ms with
      | .error e => .error e
      | .ok rs => .ok (r :: rs)

/-- EventMessageCRUD.update_msgs: delete the rows of the sensor whose pattern is
not among msg_list, then insert a row for every pattern of msg_list not among
the surviving rows. -/
def update_msgs (source_type sensor_name : String) (gt : Msg → DT) (msg_list : List Msg)
    (db : DB) : Except String DB :=
  let kept := db.filter (fun r => !(r.name == sensor_name) || msgIn r.msg msg_list)
  let existing := (get_sensor_messages sensor_name kept).map (fun r => r.msg)
  let new_msgs := msg_list.filter (fun m => !(msgIn m existing))
  match mkRecords source_type sensor_name gt new_msgs with
  | .error e => .error e
  | .ok rs => .ok (kept ++ rs)

/-- EventMessageCRUD.reset_timeout: for every row of the sensor whose timeout
is before base_time, clear the received fields and recompute the timeout with
get_timeout (modelled by gt). -/
def reset_timeout (gt : Msg → DT) (sensor_name : String) (base_time : DT) (db : DB) : DB :=
  db.map (fun r =>
    if r.name == sensor_name && DT.lt r.timeout base_time then
      { r with last_receive_time := none, last_receive := none, timeout := gt r.msg }
    else r)

/-- EventMessageCRUD.initialize: if the sensor already has rows, run
update_msgs then reset_timeout at the given base time, otherwise create one
row per pattern. -/
def init (source_type sensor_name : String) (gt : Msg → DT) (msg_list : List Msg)
    (dt : DT) (db : DB) : Except String DB :=
  if (get_sensor_messages sensor_name db).length > 0 then
    match update_msgs source_type sensor_name gt msg_list db with
    | .error e => .error e
    | .ok db1 => .ok (reset_timeout gt sensor_name dt db1)
  else
    match mkRecords source_type sensor_name gt msg_list with
    | .error e => .error e
    | .ok rs => .ok (db ++ rs)

/-- The loop body of EventMessageCRUD.status over the rows of the sensor. -/
def statusAux : List EventMessage → DBStatus
  | [] => .ALL_RECEIVED
  | r :: rest =>
    if r.last_receive.isNone || r.last_receive_time.isNone then .NOT_ALL_RECEIVED
    else statusAux rest

/-- EventMessageCRUD.status. -/
def status (sensor_name : String) (db : DB) : DBStatus :=
  statusAux (get_sensor_messages sensor_name db)

/-- EventMessageCRUD.get_unreceived_msgs: patterns of the rows of the sensor with
both received fields unset. -/
def get_unreceived_msgs (sensor_name : String) (db : DB) : List Msg :=
  ((get_sensor_messages sensor_name db).filter
    (fun r => r.last_receive.isNone && r.last_receive_time.isNone)).map (fun r => r.msg)

/-- EventMessageCRUD.update_on_receive: on every row of the sensor whose
pattern equals match_wanted, set last_receive_time to the value the internal
clock TimeUtils().get_now() returns at the moment of the call (the parameter
now_clock models that ambient read; the Python method takes no time
argument), and set last_receive to receive_msg. -/
def update_on_receive (sensor_name : String) (match_wanted : Msg) (receive_msg : Option PVal)
    (now_clock : DT) (db : DB) : DB :=
  db.map (fun r =>
    if r.name == sensor_name && msgEq r.msg match_wanted then
      { r with last_receive_time := some now_clock, last_receive := receive_msg }
    else r)

/-- EventMessageCRUD.delete: remove every row of the sensor. -/
def delete (sensor_name : String) (db : DB) : DB :=
  db.filter (fun r => !(r.name == sensor_name))

end EventMessageCRUD

/-- The rows that do not belong to the given sensor. -/
def others (sensor_name : String) (db : DB) : DB :=
  db.filter (fun r => !(r.name == sensor_name))

/-- The canonical forms of the patterns having a row for the given sensor. -/
def canonMsgs (sensor_name : String) (db : DB) : List Msg :=
  (EventMessageCRUD.get_sensor_messages sensor_name db).map (fun r => canon r.msg)

/-- A pattern whose frequency field validates, together with a valid
source_type: exactly the condition under which building its record cannot
raise. -/
def msgValid (source_type : String) (m : Msg) : Bool :=
  match lookupKey "frequency" m with
  | some (JVal.jstr s) =>
    decide (s ∈ available_frequency) && decide (source_type ∈ available_source_type)
  | _ => false

/-- The record newRecord returns on success. -/
def mkRecOk (source_type sensor_name : String) (gt : Msg → DT) (m : Msg) : EventMessage :=
  { name := sensor_name, msg := m, source_type := source_type, frequency := msgFrequency m,
    last_receive := none, last_receive_time := none, timeout := gt m }

/-- A row is unsatisfied when either received field is unset; the loop of
status reports NOT_ALL_RECEIVED exactly on such a row. -/
def unsatisfiedB (r : EventMessage) : Bool := r.last_receive.isNone || r.last_receive_time.isNone

/-- A row is awaiting when both received fields are unset; get_unreceived_msgs
returns exactly the patterns of such rows. -/
def awaitingB (r : EventMessage) : Bool := r.last_receive.isNone && r.last_receive_time.isNone

deriving instance DecidableEq for Except

/-! ### Basic lemmas about canonical equality and the record builders -/

theorem msgEq_iff (a b : Msg) : msgEq a b = true ↔ canon a = canon b := by
  simp [msgEq]

theorem msgIn_iff (m : Msg) (l : List Msg) :
    msgIn m l = true ↔ ∃ x ∈ l, canon m = canon x := by
  simp [msgIn, List.any_eq_true, msgEq]

theorem mem_canonMsgs (sn : String) (db : DB) (c : Msg) :
    c ∈ canonMsgs sn db ↔ ∃ r ∈ db, r.name = sn ∧ canon r.msg = c := by
  simp only [canonMsgs, EventMessageCRUD.get_sensor_messages, List.mem_map, List.mem_filter,
    beq_iff_eq]
  constructor
  · rintro ⟨r, ⟨hr, hn⟩, hc⟩
    exact ⟨r, hr, hn, hc⟩
  · rintro ⟨r, hr, hn, hc⟩
    exact ⟨r, ⟨hr, hn⟩, hc⟩

theorem newRecord_shape (st sn : String) (gt : Msg → DT) (m : Msg) (r : EventMessage)
    (h : EventMessageCRUD.newRecord st sn gt m = Except.ok r) :
    r = mkRecOk st sn gt m := by
  unfold EventMessageCRUD.newRecord mkEventMessage at h
  split at h
  · exact absurd h (by simp)
  · rename_i v hl
    split at h
    · split at h
      · rename_i h1 h2
        cases h
        unfold mkRecOk msgFrequency
        rw [hl]
        rfl
      · exact absurd h (by simp)
    · exact absurd h (by simp)

theorem newRecord_ok (st sn : String) (gt : Msg → DT) (m : Msg)
    (h : msgValid st m = true) :
    EventMessageCRUD.newRecord st sn gt m = Except.ok (mkRecOk st sn gt m) := by
  unfold msgValid at h
  split at h
  · rename_i s hl
    simp only [Bool.and_eq_true, decide_eq_true_eq] at h
    unfold EventMessageCRUD.newRecord mkEventMessage
    rw [hl]
    have hf : jvalAsFreq (JVal.jstr s) = s := rfl
    simp only [hf, if_pos h.2, if_pos h.1]
    unfold mkRecOk msgFrequency
    rw [hl]
    rfl
  · exact absurd h (by simp)

theorem mkRecords_shape (st sn : String) (gt : Msg → DT) (L : List Msg)
    (rs : List EventMessage)
    (h : EventMessageCRUD.mkRecords st sn gt L = Except.ok rs) :
    rs = L.map (mkRecOk st sn gt) := by
  induction L generalizing rs with
  | nil =>
    unfold EventMessageCRUD.mkRecords at h
    cases h
    rfl
  | cons m ms ih =>
    unfold EventMessageCRUD.mkRecords at h
    split at h
    · exact absurd h (by simp)
    · rename_i r hr
      split at h
      · exact absurd h (by simp)
      · rename_i rest hrs
        cases h
        rw [List.map_cons, ← newRecord_shape st sn gt m r hr, ih rest hrs]

theorem mkRecords_ok (st sn : String) (gt : Msg → DT) (L : List Msg)
    (h : ∀ m ∈ L, msgValid st m = true) :
    EventMessageCRUD.mkRecords st sn gt L = Except.ok (L.map (mkRecOk st sn gt)) := by
  induction L with
  | nil => rfl
  | cons m ms ih =>
    unfold EventMessageCRUD.mkRecords
    rw [newRecord_ok st sn gt m (h m (by simp)), ih (fun x hx => h x (by simp [hx]))]
    rfl

/-! ### Status and unreceived characterizations -/

theorem statusAux_all (l : List EventMessage) :
    EventMessageCRUD.statusAux l = DBStatus.ALL_RECEIVED ↔ ∀ r ∈ l, unsatisfiedB r = false := by
  induction l with
  | nil => simp [EventMessageCRUD.statusAux]
  | cons r rest ih =>
    by_cases h : (r.last_receive.isNone || r.last_receive_time.isNone) = true
    · simp only [EventMessageCRUD.statusAux, if_pos h]
      constructor
      · intro hx
        exact absurd hx (by simp)
      · intro hx
        exact absurd (hx r (by simp)) (by simp [unsatisfiedB, h])
    · simp only [EventMessageCRUD.statusAux, if_neg h]
      rw [ih]
      constructor
      · intro hx x hxl
        rcases List.mem_cons.mp hxl with hx1 | hx2
        · subst hx1
          rw [Bool.not_eq_true] at h
          exact h
        · exact hx x hx2
      · intro hx x hxl
        exact hx x (List.mem_cons_of_mem r hxl)

theorem status_all (sn : String) (db : DB) :
    EventMessageCRUD.status sn db = DBStatus.ALL_RECEIVED ↔
      ∀ r ∈ db, r.name = sn → unsatisfiedB r = false := by
  unfold EventMessageCRUD.status
  rw [statusAux_all]
  simp [EventMessageCRUD.get_sensor_messages, List.mem_filter]

theorem status_not_all (sn : String) (db : DB) :
    EventMessageCRUD.status sn db = DBStatus.NOT_ALL_RECEIVED ↔
      ∃ r ∈ db, r.name = sn ∧ unsatisfiedB r = true := by
  constructor
  · intro h
    have h2 : ¬ (EventMessageCRUD.status sn db = DBStatus.ALL_RECEIVED) := by
      rw [h]; intro hx; cases hx
    rw [status_all] at h2
    push_neg at h2
    obtain ⟨r, hr, hn, hu⟩ := h2
    exact ⟨r, hr, hn, by simpa using hu⟩
  · intro ⟨r, hr, hn, hu⟩
    cases hs : EventMessageCRUD.status sn db with
    | NOT_ALL_RECEIVED => rfl
    | ALL_RECEIVED =>
      exact absurd ((status_all sn db).mp hs r hr hn) (by simp [hu])

theorem unreceived_empty (sn : String) (db : DB) :
    EventMessageCRUD.get_unreceived_msgs sn db = [] ↔
      ∀ r ∈ db, r.name = sn → awaitingB r = false := by
  unfold EventMessageCRUD.get_unreceived_msgs
  rw [List.map_eq_nil_iff, List.filter_eq_nil_iff]
  simp [EventMessageCRUD.get_sensor_messages, List.mem_filter, awaitingB,
    Option.isSome_iff_ne_none]

theorem mem_unreceived (sn : String) (db : DB) (c : Msg) :
    c ∈ EventMessageCRUD.get_unreceived_msgs sn db ↔
      ∃ r ∈ db, r.name = sn ∧ awaitingB r = true ∧ r.msg = c := by
  unfold EventMessageCRUD.get_unreceived_msgs
  simp only [List.mem_map, List.mem_filter, EventMessageCRUD.get_sensor_messages, beq_iff_eq,
    awaitingB]
  constructor
  · rintro ⟨r, ⟨⟨hr, hn⟩, hw⟩, hc⟩
    exact ⟨r, hr, hn, hw, hc⟩
  · rintro ⟨r, hr, hn, hw, hc⟩
    exact ⟨r, ⟨⟨hr, hn⟩, hw⟩, hc⟩

/-! ### Shape lemmas for the mutating operations -/

theorem canonMsgs_map (sn : String) (f : EventMessage → EventMessage) (db : DB)
    (hname : ∀ r, (f r).name = r.name) (hmsg : ∀ r, (f r).msg = r.msg) :
    canonMsgs sn (db.map f) = canonMsgs sn db := by
  unfold canonMsgs EventMessageCRUD.get_sensor_messages
  induction db with
  | nil => rfl
  | cons r rest ih =>
    simp only [List.map_cons, List.filter_cons, hname r]
    by_cases h : (r.name == sn) = true
    · rw [if_pos h, if_pos h]
      simp only [List.map_cons, hmsg r]
      rw [ih]
    · rw [if_neg h, if_neg h]
      exact ih

theorem canonMsgs_reset (gt : Msg → DT) (sn : String) (t : DT) (db : DB) :
    canonMsgs sn (EventMessageCRUD.reset_timeout gt sn t db) = canonMsgs sn db := by
  unfold EventMessageCRUD.reset_timeout
  apply canonMsgs_map
  · intro r
    split <;> rfl
  · intro r
    split <;> rfl

theorem canonMsgs_append (sn : String) (a b : DB) :
    canonMsgs sn (a ++ b) = canonMsgs sn a ++ canonMsgs sn b := by
  simp [canonMsgs, EventMessageCRUD.get_sensor_messages, List.filter_append]

theorem canonMsgs_mkRecOk (st sn : String) (gt : Msg → DT) (L : List Msg) :
    canonMsgs sn (L.map (mkRecOk st sn gt)) = L.map canon := by
  unfold canonMsgs EventMessageCRUD.get_sensor_messages
  induction L with
  | nil => rfl
  | cons m ms ih =>
    simp only [List.map_cons, List.filter_cons]
    have h : ((mkRecOk st sn gt m).name == sn) = true := by simp [mkRecOk]
    rw [if_pos h]
    simp only [List.map_cons]
    rw [ih]
    rfl

theorem reset_noop (gt : Msg → DT) (sn : String) (t : DT) (db : DB)
    (h : ∀ r ∈ db, r.name = sn → DT.lt r.timeout t = false) :
    EventMessageCRUD.reset_timeout gt sn t db = db := by
  unfold EventMessageCRUD.reset_timeout
  induction db with
  | nil => rfl
  | cons r rest ih =>
    simp only [List.map_cons]
    have hr : (r.name == sn && DT.lt r.timeout t) = false := by
      by_cases hn : r.name = sn
      · simp [hn, h r (List.mem_cons_self r rest) hn]
      · simp [hn]
    rw [hr]
    simp only [Bool.false_eq_true, if_false]
    rw [ih (fun x hx hn => h x (List.mem_cons_of_mem r hx) hn)]

theorem upd_noop (sn : String) (m : Msg) (p : Option PVal) (c : DT) (db : DB)
    (h : ∀ r ∈ db, r.name = sn → msgEq r.msg m = false) :
    EventMessageCRUD.update_on_receive sn m p c db = db := by
  unfold EventMessageCRUD.update_on_receive
  induction db with
  | nil => rfl
  | cons r rest ih =>
    simp only [List.map_cons]
    have hr : (r.name == sn && msgEq r.msg m) = false := by
      by_cases hn : r.name = sn
      · simp [hn, h r (List.mem_cons_self r rest) hn]
      · simp [hn]
    rw [hr]
    simp only [Bool.false_eq_true, if_false]
    rw [ih (fun x hx hn => h x (List.mem_cons_of_mem r hx) hn)]

/-- The transformation reset_timeout applies to one expired row: received
fields cleared, timeout recomputed with the policy. -/
def resetRec (gt : Msg → DT) (r : EventMessage) : EventMessage :=
  { r with last_receive_time := none, last_receive := none, timeout := gt r.msg }

/-- The transformation update_on_receive applies to one matched row: receipt
time set to the internal clock value, payload stored, timeout untouched. -/
def updRec (p : Option PVal) (c : DT) (r : EventMessage) : EventMessage :=
  { r with last_receive_time := some c, last_receive := p }

theorem reset_getElem (gt : Msg → DT) (sn : String) (now : DT) (db : DB) (i : Nat)
    (hi : i < db.length) :
    (EventMessageCRUD.reset_timeout gt sn now db)[i]? =
      some (if (db[i].name == sn && DT.lt db[i].timeout now) = true
            then resetRec gt db[i]
            else db[i]) := by
  unfold EventMessageCRUD.reset_timeout resetRec
  rw [List.getElem?_map, List.getElem?_eq_getElem hi]
  rfl

theorem upd_getElem (sn : String) (m : Msg) (p : Option PVal) (c : DT) (db : DB) (i : Nat)
    (hi : i < db.length) :
    (EventMessageCRUD.update_on_receive sn m p c db)[i]? =
      some (if (db[i].name == sn && msgEq db[i].msg m) = true
            then updRec p c db[i]
            else db[i]) := by
  unfold EventMessageCRUD.update_on_receive updRec
  rw [List.getElem?_map, List.getElem?_eq_getElem hi]
  rfl

/-! ### The deadline returned by the modelled policy never precedes its input -/

theorem key_le_endOfDay (t : DT) (h : DT.valid t) : DT.key t ≤ DT.key (endOfDay t) := by
  obtain ⟨h1, h2, h3, h4, h5, h6, h7, h8, h9, h10⟩ := h
  unfold DT.key endOfDay
  simp only []
  omega

theorem key_le_endOfMonth (t : DT) (h : DT.valid t) : DT.key t ≤ DT.key (endOfMonth t) := by
  obtain ⟨h1, h2, h3, h4, h5, h6, h7, h8, h9, h10⟩ := h
  unfold DT.key endOfMonth
  simp only []
  omega

theorem key_le_computeDeadline (f : String) (t : DT) (h : DT.valid t) :
    DT.key t ≤ DT.key (computeDeadline f t) := by
  unfold computeDeadline
  by_cases hf : f = "M"
  · rw [if_pos hf]
    exact key_le_endOfMonth t h
  · rw [if_neg hf]
    exact key_le_endOfDay t h

/-! ### Frame lemmas: rows of other sensors are untouched -/

theorem others_map (sn : String) (f : EventMessage → EventMessage) (db : DB)
    (hfix : ∀ r, r.name ≠ sn → f r = r) (hname : ∀ r, (f r).name = r.name) :
    others sn (db.map f) = others sn db := by
  unfold others
  induction db with
  | nil => rfl
  | cons r rest ih =>
    simp only [List.map_cons, List.filter_cons]
    by_cases h : r.name = sn
    · have h1 : (!(r.name == sn)) = false := by simp [h]
      have h2 : (!((f r).name == sn)) = false := by simp [hname r, h]
      rw [h1, h2]
      simp only [Bool.false_eq_true, if_false]
      exact ih
    · rw [hfix r h]
      have h1 : (!(r.name == sn)) = true := by simp [h]
      rw [h1]
      simp only [if_true]
      rw [ih]

theorem others_append (sn : String) (a b : DB) :
    others sn (a ++ b) = others sn a ++ others sn b := by
  simp [others, List.filter_append]

theorem others_all_sensor (sn : String) (rs : DB) (h : ∀ r ∈ rs, r.name = sn) :
    others sn rs = [] := by
  unfold others
  rw [List.filter_eq_nil_iff]
  intro r hr
  simp [h r hr]

theorem others_reset (gt : Msg → DT) (sn : String) (t : DT) (db : DB) :
    others sn (EventMessageCRUD.reset_timeout gt sn t db) = others sn db := by
  unfold EventMessageCRUD.reset_timeout
  apply others_map
  · intro r hr
    have h : (r.name == sn && DT.lt r.timeout t) = false := by
      simp [hr]
    rw [h]
    simp
  · intro r
    split <;> rfl

theorem others_upd (sn : String) (m : Msg) (p : Option PVal) (c : DT) (db : DB) :
    others sn (EventMessageCRUD.update_on_receive sn m p c db) = others sn db := by
  unfold EventMessageCRUD.update_on_receive
  apply others_map
  · intro r hr
    have h : (r.name == sn && msgEq r.msg m) = false := by
      simp [hr]
    rw [h]
    simp
  · intro r
    split <;> rfl

theorem others_kept (sn : String) (q : EventMessage → Bool) (db : DB) :
    others sn (db.filter (fun r => !(r.name == sn) || q r)) = others sn db := by
  unfold others
  induction db with
  | nil => rfl
  | cons r rest ih =>
    simp only [List.filter_cons]
    by_cases h : r.name = sn
    · have h1 : (!(r.name == sn)) = false := by simp [h]
      rw [h1]
      by_cases h2 : q r = true
      · rw [h2]
        simp only [Bool.false_or, if_true, List.filter_cons, h1]
        simp only [Bool.false_eq_true, if_false]
        exact ih
      · have h2f : q r = false := by simpa using h2
        rw [h2f]
        simp only [Bool.or_self, Bool.false_eq_true, if_false]
        exact ih
    · have h1 : (!(r.name == sn)) = true := by simp [h]
      rw [h1]
      simp only [Bool.true_or, if_true, List.filter_cons, h1, if_true]
      rw [ih]

theorem others_delete (sn : String) (db : DB) :
    others sn (EventMessageCRUD.delete sn db) = others sn db := by
  unfold others EventMessageCRUD.delete
  rw [List.filter_filter]
  apply List.filter_congr
  intro r hr
  cases h : (r.name == sn) <;> simp [h]

theorem others_update_msgs (st sn : String) (gt : Msg → DT) (P : List Msg) (db db1 : DB)
    (h : EventMessageCRUD.update_msgs st sn gt P db = Except.ok db1) :
    others sn db1 = others sn db := by
  unfold EventMessageCRUD.update_msgs at h
  simp only [] at h
  split at h
  · exact absurd h (by simp)
  · rename_i rs hrs
    cases h
    rw [others_append]
    have hnames : ∀ r ∈ rs, r.name = sn := by
      rw [mkRecords_shape st sn gt _ rs hrs]
      intro r hr
      obtain ⟨m, hm, hr2⟩ := List.mem_map.mp hr
      rw [← hr2]
      rfl
    rw [others_all_sensor sn rs hnames, List.append_nil]
    exact others_kept sn _ db

theorem others_init (st sn : String) (gt : Msg → DT) (P : List Msg) (t : DT) (db db1 : DB)
    (h : EventMessageCRUD.init st sn gt P t db = Except.ok db1) :
    others sn db1 = others sn db := by
  unfold EventMessageCRUD.init at h
  split at h
  · split at h
    · exact absurd h (by simp)
    · rename_i db2 hdb2
      cases h
      rw [others_reset]
      exact others_update_msgs st sn gt P db db2 hdb2
  · split at h
    · exact absurd h (by simp)
    · rename_i rs hrs
      cases h
      rw [others_append]
      have hnames : ∀ r ∈ rs, r.name = sn := by
        rw [mkRecords_shape st sn gt _ rs hrs]
        intro r hr
        obtain ⟨m, hm, hr2⟩ := List.mem_map.mp hr
        rw [← hr2]
        rfl
      rw [others_all_sensor sn rs hnames, List.append_nil]

/-! ### Reconciliation: the patterns stored after a sync -/

theorem update_msgs_canon (st sn : String) (gt : Msg → DT) (P : List Msg) (db db1 : DB)
    (h : EventMessageCRUD.update_msgs st sn gt P db = Except.ok db1) :
    ∀ c, c ∈ canonMsgs sn db1 ↔ c ∈ P.map canon := by
  unfold EventMessageCRUD.update_msgs at h
  simp only [] at h
  split at h
  · exact absurd h (by simp)
  · rename_i rs hrs
    cases h
    intro c
    rw [canonMsgs_append, mkRecords_shape st sn gt _ rs hrs, canonMsgs_mkRecOk]
    constructor
    · intro hc
      rcases List.mem_append.mp hc with hk | hn
      · rw [mem_canonMsgs] at hk
        obtain ⟨r, hr, hname, hcr⟩ := hk
        have hrk := (List.mem_filter.mp hr).2
        have hb : (!(r.name == sn)) = false := by simp [hname]
        rw [hb, Bool.false_or] at hrk
        rw [msgIn_iff] at hrk
        obtain ⟨p, hp, hcp⟩ := hrk
        rw [List.mem_map]
        exact ⟨p, hp, by rw [← hcp, hcr]⟩
      · rw [List.mem_map] at hn ⊢
        obtain ⟨m, hm, hcm⟩ := hn
        exact ⟨m, (List.mem_filter.mp hm).1, hcm⟩
    · intro hc
      rw [List.mem_map] at hc
      obtain ⟨p, hp, hcp⟩ := hc
      by_cases hin : msgIn p
          ((EventMessageCRUD.get_sensor_messages sn
            (db.filter (fun r => !(r.name == sn) || msgIn r.msg P))).map
            (fun r => r.msg)) = true
      · rw [msgIn_iff] at hin
        obtain ⟨x, hx, hcx⟩ := hin
        rw [List.mem_map] at hx
        obtain ⟨r, hr, hrx⟩ := hx
        have hr2 := List.mem_filter.mp hr
        apply List.mem_append_left
        rw [mem_canonMsgs]
        refine ⟨r, hr2.1, by simpa using hr2.2, ?_⟩
        rw [hrx, ← hcx, hcp]
      · apply List.mem_append_right
        rw [List.mem_map]
        refine ⟨p, List.mem_filter.mpr ⟨hp, ?_⟩, hcp⟩
        simp [hin]

theorem init_canon (st sn : String) (gt : Msg → DT) (P : List Msg) (t : DT) (db db1 : DB)
    (h : EventMessageCRUD.init st sn gt P t db = Except.ok db1) :
    ∀ c, c ∈ canonMsgs sn db1 ↔ c ∈ P.map canon := by
  unfold EventMessageCRUD.init at h
  split at h
  · split at h
    · exact absurd h (by simp)
    · rename_i db2 hdb2
      cases h
      intro c
      rw [canonMsgs_reset]
      exact update_msgs_canon st sn gt P db db2 hdb2 c
  · rename_i hc
    split at h
    · exact absurd h (by simp)
    · rename_i rs hrs
      cases h
      intro c
      rw [canonMsgs_append, mkRecords_shape st sn gt _ rs hrs, canonMsgs_mkRecOk]
      have hnil : EventMessageCRUD.get_sensor_messages sn db = [] := by
        have hlen : (EventMessageCRUD.get_sensor_messages sn db).length = 0 := by omega
        exact List.eq_nil_of_length_eq_zero hlen
      have hemp : canonMsgs sn db = [] := by
        unfold canonMsgs
        rw [hnil]
        rfl
      rw [hemp]
      simp

/-! ### Idempotence of sync -/

theorem sync_idem (st sn : String) (gt : Msg → DT) (P : List Msg) (t : DT) (db db1 : DB)
    (h : EventMessageCRUD.init st sn gt P t db = Except.ok db1)
    (hnoexp : ∀ r ∈ db1, r.name = sn → DT.lt r.timeout t = false) :
    EventMessageCRUD.init st sn gt P t db1 = Except.ok db1 := by
  have hcan := init_canon st sn gt P t db db1 h
  by_cases hc : (EventMessageCRUD.get_sensor_messages sn db1).length > 0
  · have hkept : db1.filter (fun r => !(r.name == sn) || msgIn r.msg P) = db1 := by
      rw [List.filter_eq_self]
      intro r hr
      by_cases hn : r.name = sn
      · have hmem : canon r.msg ∈ canonMsgs sn db1 :=
          (mem_canonMsgs sn db1 (canon r.msg)).mpr ⟨r, hr, hn, rfl⟩
        have h2 := (hcan (canon r.msg)).mp hmem
        rw [List.mem_map] at h2
        obtain ⟨p, hp, hcp⟩ := h2
        have h3 : msgIn r.msg P = true := (msgIn_iff _ _).mpr ⟨p, hp, hcp.symm⟩
        simp [h3]
      · simp [hn]
    have hnew : P.filter (fun m => !(msgIn m
        ((EventMessageCRUD.get_sensor_messages sn db1).map (fun r => r.msg)))) = [] := by
      rw [List.filter_eq_nil_iff]
      intro p hp
      have hmem : canon p ∈ canonMsgs sn db1 :=
        (hcan (canon p)).mpr (List.mem_map.mpr ⟨p, hp, rfl⟩)
      rw [mem_canonMsgs] at hmem
      obtain ⟨r, hr, hn, hcr⟩ := hmem
      have h4 : msgIn p ((EventMessageCRUD.get_sensor_messages sn db1).map
          (fun r => r.msg)) = true := by
        rw [msgIn_iff]
        refine ⟨r.msg, ?_, hcr.symm⟩
        rw [List.mem_map]
        refine ⟨r, ?_, rfl⟩
        unfold EventMessageCRUD.get_sensor_messages
        exact List.mem_filter.mpr ⟨hr, by simp [hn]⟩
      simp [h4]
    have hupd : EventMessageCRUD.update_msgs st sn gt P db1 = Except.ok db1 := by
      unfold EventMessageCRUD.update_msgs
      simp only []
      rw [hkept, hnew]
      simp [EventMessageCRUD.mkRecords]
    unfold EventMessageCRUD.init
    rw [if_pos hc, hupd]
    simp only []
    rw [reset_noop gt sn t db1 hnoexp]
  · have hnil : EventMessageCRUD.get_sensor_messages sn db1 = [] :=
      List.eq_nil_of_length_eq_zero (by omega)
    have hP : P.map canon = [] := by
      rw [List.eq_nil_iff_forall_not_mem]
      intro c hcP
      have h5 := (hcan c).mpr hcP
      rw [mem_canonMsgs] at h5
      obtain ⟨r, hr, hn, _⟩ := h5
      have h6 : r ∈ EventMessageCRUD.get_sensor_messages sn db1 := by
        unfold EventMessageCRUD.get_sensor_messages
        exact List.mem_filter.mpr ⟨hr, by simp [hn]⟩
      rw [hnil] at h6
      exact absurd h6 (List.not_mem_nil r)
    have hPnil : P = [] := List.map_eq_nil_iff.mp hP
    subst hPnil
    unfold EventMessageCRUD.init
    rw [if_neg hc]
    simp [EventMessageCRUD.mkRecords]

/-! ### Concrete sample data used by witnesses and counterexamples -/

/-- A daily wanted message. -/
def msgD : Msg := [("frequency", JVal.jstr "D"), ("topic", JVal.jstr "etl-finish")]

/-- A monthly wanted message. -/
def msgM : Msg := [("frequency", JVal.jstr "M"), ("topic", JVal.jstr "etl-finish")]

/-- A daily wanted message no longer declared. -/
def msgOld : Msg := [("frequency", JVal.jstr "D"), ("topic", JVal.jstr "old-topic")]

def dt15 : DT := ⟨2019, 6, 15, 8, 0, 0⟩
def dtEnd15 : DT := ⟨2019, 6, 15, 23, 59, 59⟩
def dt16 : DT := ⟨2019, 6, 16, 0, 0, 0⟩
def dtEnd16 : DT := ⟨2019, 6, 16, 23, 59, 59⟩
def dt17 : DT := ⟨2019, 6, 17, 1, 2, 3⟩

/-- A concrete policy: deadlines computed at current time dt16. -/
def gtEx : Msg → DT := policyTimeout dt16

/-- A row of a different sensor. -/
def recOther : EventMessage :=
  { name := "other", msg := msgD, source_type := "kafka", frequency := "D",
    last_receive := none, last_receive_time := none, timeout := dtEnd15 }

/-- A stale satisfied row of sensor test for a no-longer-declared pattern. -/
def recOld : EventMessage :=
  { name := "test", msg := msgOld, source_type := "kafka", frequency := "D",
    last_receive := some (PVal.pnum 7), last_receive_time := some dt15, timeout := dtEnd15 }

/-- The store before the sample sync. -/
def dbPrev : DB := [recOther, recOld]

/-- The fresh daily row the sample sync creates. -/
def recD16 : EventMessage :=
  { name := "test", msg := msgD, source_type := "kafka", frequency := "D",
    last_receive := none, last_receive_time := none, timeout := dtEnd16 }

/-- The fresh monthly row the sample sync creates. -/
def recM30 : EventMessage :=
  { name := "test", msg := msgM, source_type := "kafka", frequency := "M",
    last_receive := none, last_receive_time := none, timeout := ⟨2019, 6, 30, 23, 59, 59⟩ }

/-- The store after the sample sync. -/
def dbSynced : DB := [recOther, recD16, recM30]

/-! ### The claims -/

/-- C1: after a sync (initialize) of watcher w with pattern list P at time t
completes, the set of patterns having records for w equals exactly the
canonical-equality set of P, whatever records existed for w before. -/
theorem c1_sync_reconciles (st sn : String) (gt : Msg → DT) (P : List Msg) (t : DT)
    (db db1 : DB) (h : EventMessageCRUD.init st sn gt P t db = Except.ok db1) (c : Msg) :
    c ∈ canonMsgs sn db1 ↔ c ∈ P.map canon :=
  init_canon st sn gt P t db db1 h c

theorem c1_sync_reconciles_witness :
    canon msgD ∈ canonMsgs "test" dbSynced ∧ canon msgOld ∉ canonMsgs "test" dbSynced := by
  constructor
  · exact (c1_sync_reconciles "kafka" "test" gtEx [msgD, msgM] dt16 dbPrev dbSynced
      (by decide) (canon msgD)).mpr (by decide)
  · intro hmem
    have h2 := (c1_sync_reconciles "kafka" "test" gtEx [msgD, msgM] dt16 dbPrev dbSynced
      (by decide) (canon msgOld)).mp hmem
    exact absurd h2 (by decide)

/-- C2: a second sync with the same watcher, pattern list and time, with no
intervening arrivals and no record past its deadline, returns the record set
unchanged. -/
theorem c2_sync_idempotent (st sn : String) (gt : Msg → DT) (P : List Msg) (t : DT)
    (db db1 : DB) (h : EventMessageCRUD.init st sn gt P t db = Except.ok db1)
    (hnoexp : ∀ r ∈ db1, r.name = sn → DT.lt r.timeout t = false) :
    EventMessageCRUD.init st sn gt P t db1 = Except.ok db1 :=
  sync_idem st sn gt P t db db1 h hnoexp

theorem c2_sync_idempotent_witness :
    EventMessageCRUD.init "kafka" "test" gtEx [msgD, msgM] dt16 dbSynced =
      Except.ok dbSynced :=
  c2_sync_idempotent "kafka" "test" gtEx [msgD, msgM] dt16 dbPrev dbSynced
    (by decide) (by decide)

/-- C10: every mutating operation scoped to a sensor leaves every row of a
different sensor completely unchanged. -/
theorem c10_other_watchers_untouched (st sn : String) (gt : Msg → DT) (P : List Msg)
    (t : DT) (m : Msg) (p : Option PVal) (c : DT) (db : DB) :
    (∀ db1, EventMessageCRUD.init st sn gt P t db = Except.ok db1 →
      others sn db1 = others sn db) ∧
    others sn (EventMessageCRUD.reset_timeout gt sn t db) = others sn db ∧
    others sn (EventMessageCRUD.update_on_receive sn m p c db) = others sn db ∧
    others sn (EventMessageCRUD.delete sn db) = others sn db ∧
    (∀ db1, EventMessageCRUD.update_msgs st sn gt P db = Except.ok db1 →
      others sn db1 = others sn db) :=
  ⟨fun db1 h => others_init st sn gt P t db db1 h,
   others_reset gt sn t db,
   others_upd sn m p c db,
   others_delete sn db,
   fun db1 h => others_update_msgs st sn gt P db db1 h⟩

theorem c10_other_watchers_untouched_witness :
    others "test" dbSynced = others "test" dbPrev :=
  (c10_other_watchers_untouched "kafka" "test" gtEx [msgD, msgM] dt16 msgD none dt15
    dbPrev).1 dbSynced (by decide)

/-- C3 counterexample: with the modelled policy evaluated at the last second
of a day, an expired record is reset to a deadline equal to, not strictly
greater than, the time used to recompute it. -/
theorem c3_strict_increase_fails :
    DT.valid dtEnd16 ∧
    recOld.name = "test" ∧
    DT.lt recOld.timeout dtEnd16 = true ∧
    (EventMessageCRUD.reset_timeout (policyTimeout dtEnd16) "test" dtEnd16 [recOld])[0]? =
      some (resetRec (policyTimeout dtEnd16) recOld) ∧
    ¬ DT.key dtEnd16 < DT.key (resetRec (policyTimeout dtEnd16) recOld).timeout := by
  decide

/-- C3 (amended): reset_timeout leaves every record of the watcher whose
deadline is not before now unchanged, and brings every record with deadline
before now into the awaiting state with a new deadline greater than or equal
to the time used to recompute it (equality occurs exactly when the recompute
time is the final second of its day or month). -/
theorem c3_reset_expired (sn : String) (policy_now now : DT) (db : DB)
    (hval : DT.valid policy_now) (i : Nat) (hi : i < db.length) :
    (¬ (db[i].name = sn ∧ DT.lt db[i].timeout now = true) →
      (EventMessageCRUD.reset_timeout (policyTimeout policy_now) sn now db)[i]? =
        some db[i]) ∧
    (db[i].name = sn ∧ DT.lt db[i].timeout now = true →
      (EventMessageCRUD.reset_timeout (policyTimeout policy_now) sn now db)[i]? =
        some (resetRec (policyTimeout policy_now) db[i]) ∧
      (resetRec (policyTimeout policy_now) db[i]).last_receive = none ∧
      (resetRec (policyTimeout policy_now) db[i]).last_receive_time = none ∧
      DT.key policy_now ≤ DT.key (resetRec (policyTimeout policy_now) db[i]).timeout) := by
  constructor
  · intro hno
    rw [reset_getElem _ _ _ _ i hi]
    have hcond : (db[i].name == sn && DT.lt db[i].timeout now) = false := by
      by_cases h1 : db[i].name = sn
      · by_cases h2 : DT.lt db[i].timeout now = true
        · exact absurd ⟨h1, h2⟩ hno
        · simp [h1, h2]
      · simp [h1]
    rw [hcond]
    simp
  · rintro ⟨h1, h2⟩
    rw [reset_getElem _ _ _ _ i hi]
    have hcond : (db[i].name == sn && DT.lt db[i].timeout now) = true := by
      simp [h1, h2]
    rw [hcond]
    refine ⟨by simp, rfl, rfl, ?_⟩
    have he : (resetRec (policyTimeout policy_now) db[i]).timeout =
        policyTimeout policy_now db[i].msg := rfl
    rw [he]
    unfold policyTimeout
    exact key_le_computeDeadline _ policy_now hval

theorem c3_reset_expired_witness :
    (EventMessageCRUD.reset_timeout (policyTimeout dt16) "test" dt16 [recOld])[0]? =
      some (resetRec (policyTimeout dt16) recOld) :=
  (((c3_reset_expired "test" dt16 dt16 [recOld] (by decide) 0 (by decide)).2)
    (by decide)).1

/-- C6: in reset_timeout, selection of the records to reset compares their
deadline with the now passed by the caller, while the value of the new
deadline is computed by the policy from its own current time; the two times
are independent inputs and can differ. -/
theorem c6_recompute_uses_policy_now (sn : String) (policy_now now : DT) (db : DB)
    (i : Nat) (hi : i < db.length) (hname : db[i].name = sn) :
    (EventMessageCRUD.reset_timeout (policyTimeout policy_now) sn now db)[i]? =
      some (if DT.lt db[i].timeout now = true
            then resetRec (policyTimeout policy_now) db[i]
            else db[i]) ∧
    (resetRec (policyTimeout policy_now) db[i]).timeout =
      computeDeadline (msgFrequency db[i].msg) policy_now := by
  refine ⟨?_, rfl⟩
  rw [reset_getElem _ _ _ _ i hi]
  by_cases h2 : DT.lt db[i].timeout now = true
  · have hcond : (db[i].name == sn && DT.lt db[i].timeout now) = true := by
      simp [hname, h2]
    rw [hcond, if_pos h2]
    simp
  · have hcond : (db[i].name == sn && DT.lt db[i].timeout now) = false := by
      simp [hname, h2]
    rw [hcond, if_neg h2]
    simp

theorem c6_recompute_uses_policy_now_witness :
    (EventMessageCRUD.reset_timeout (policyTimeout dt17) "test" dt16 [recOld])[0]? =
      some (if DT.lt recOld.timeout dt16 = true
            then resetRec (policyTimeout dt17) recOld
            else recOld) ∧
    (resetRec (policyTimeout dt17) recOld).timeout =
      computeDeadline (msgFrequency recOld.msg) dt17 :=
  c6_recompute_uses_policy_now "test" dt17 dt16 [recOld] 0 (by decide) (by decide)

/-- A row with a payload set but no receipt time, violating the paired
nullability invariant. -/
def recHalf : EventMessage :=
  { name := "test", msg := msgD, source_type := "kafka", frequency := "D",
    last_receive := some (PVal.pnum 1), last_receive_time := none, timeout := dtEnd15 }

/-- C4 counterexample: a watcher whose only record has a payload set but no
receipt time is reported NOT_ALL_RECEIVED although its unreceived list is
empty, so status equal to AllReceived is not equivalent to an empty
unreceived sequence on arbitrary record sets. -/
theorem c4_status_unreceived_mismatch :
    EventMessageCRUD.status "test" [recHalf] = DBStatus.NOT_ALL_RECEIVED ∧
    EventMessageCRUD.get_unreceived_msgs "test" [recHalf] = [] := by
  decide

/-- C4 (amended): for record sets satisfying the paired-nullability invariant
(payload and receipt time of a record set together or unset together),
status returns AllReceived exactly when get_unreceived_msgs returns the
empty sequence; a watcher with zero records has status AllReceived and an
empty unreceived sequence. -/
theorem c4_status_iff_unreceived (sn : String) (db : DB)
    (hpair : ∀ r ∈ db, r.name = sn → r.last_receive.isNone = r.last_receive_time.isNone) :
    (EventMessageCRUD.status sn db = DBStatus.ALL_RECEIVED ↔
      EventMessageCRUD.get_unreceived_msgs sn db = []) ∧
    EventMessageCRUD.status sn [] = DBStatus.ALL_RECEIVED ∧
    EventMessageCRUD.get_unreceived_msgs sn [] = [] := by
  refine ⟨?_, rfl, rfl⟩
  rw [status_all, unreceived_empty]
  have key : ∀ r ∈ db, r.name = sn → (unsatisfiedB r = false ↔ awaitingB r = false) := by
    intro r hr hn
    have hp := hpair r hr hn
    unfold unsatisfiedB awaitingB
    rw [hp]
    cases r.last_receive_time.isNone <;> simp
  constructor
  · intro h r hr hn
    exact (key r hr hn).mp (h r hr hn)
  · intro h r hr hn
    exact (key r hr hn).mpr (h r hr hn)

theorem c4_status_iff_unreceived_witness :
    EventMessageCRUD.status "test" dbSynced = DBStatus.ALL_RECEIVED ↔
      EventMessageCRUD.get_unreceived_msgs "test" dbSynced = [] :=
  (c4_status_iff_unreceived "test" dbSynced (by decide)).1

/-- C5: update_on_receive keeps the length of the store, rewrites every
record of the watcher whose pattern canonically equals the matched pattern
to have the payload and receipt time set while its deadline is unchanged,
leaves every other record unchanged, and is a total no-op, with no error,
when no record of the watcher matches. -/
theorem c5_update_on_receive_frame (sn : String) (m : Msg) (p : Option PVal) (c : DT)
    (db : DB) :
    (EventMessageCRUD.update_on_receive sn m p c db).length = db.length ∧
    (∀ i, ∀ hi : i < db.length,
      (db[i].name = sn ∧ canon db[i].msg = canon m →
        (EventMessageCRUD.update_on_receive sn m p c db)[i]? = some (updRec p c db[i])) ∧
      (updRec p c db[i]).timeout = db[i].timeout ∧
      (¬ (db[i].name = sn ∧ canon db[i].msg = canon m) →
        (EventMessageCRUD.update_on_receive sn m p c db)[i]? = some db[i])) ∧
    ((∀ r ∈ db, r.name = sn → msgEq r.msg m = false) →
      EventMessageCRUD.update_on_receive sn m p c db = db) := by
  refine ⟨?_, ?_, upd_noop sn m p c db⟩
  · unfold EventMessageCRUD.update_on_receive
    exact List.length_map _ _
  · intro i hi
    refine ⟨?_, rfl, ?_⟩
    · rintro ⟨h1, h2⟩
      rw [upd_getElem _ _ _ _ _ i hi]
      have hcond : (db[i].name == sn && msgEq db[i].msg m) = true := by
        simp [h1, msgEq, h2]
      rw [hcond]
      simp
    · intro hno
      rw [upd_getElem _ _ _ _ _ i hi]
      have hcond : (db[i].name == sn && msgEq db[i].msg m) = false := by
        by_cases h1 : db[i].name = sn
        · by_cases h2 : canon db[i].msg = canon m
          · exact absurd ⟨h1, h2⟩ hno
          · simp [h1, msgEq, h2]
        · simp [h1]
      rw [hcond]
      simp

theorem c5_update_on_receive_frame_witness :
    EventMessageCRUD.update_on_receive "test" msgM (some (PVal.pnum 1)) dt15 [recOld] =
      [recOld] :=
  (c5_update_on_receive_frame "test" msgM (some (PVal.pnum 1)) dt15 [recOld]).2.2
    (by decide)

/-- C7: constructing an EventMessage with a frequency or source type outside
its validated set fails with a validation error before any record reaches
storage, and construction with values inside both sets succeeds. -/
theorem c7_construction_validation (name : String) (msg : Msg) (st fr : String)
    (lr : Option PVal) (lrt : Option DT) (tmo : DT) :
    ((fr ∉ available_frequency ∨ st ∉ available_source_type) →
      ∃ e, mkEventMessage name msg st fr lr lrt tmo = Except.error e) ∧
    (fr ∈ available_frequency → st ∈ available_source_type →
      mkEventMessage name msg st fr lr lrt tmo =
        Except.ok { name := name, msg := msg, source_type := st, frequency := fr,
                    last_receive := lr, last_receive_time := lrt, timeout := tmo }) := by
  constructor
  · intro h
    unfold mkEventMessage
    by_cases h1 : st ∈ available_source_type
    · rw [if_pos h1]
      rcases h with h2 | h2
      · rw [if_neg h2]
        exact ⟨_, rfl⟩
      · exact absurd h1 h2
    · rw [if_neg h1]
      exact ⟨_, rfl⟩
  · intro h1 h2
    unfold mkEventMessage
    rw [if_pos h2, if_pos h1]

theorem c7_construction_validation_witness :
    (∃ e, mkEventMessage "test" msgD "kafka" "not_valid" none none dtEnd15 =
      Except.error e) ∧
    mkEventMessage "test" msgD "kafka" "D" none none dtEnd15 =
      Except.ok { name := "test", msg := msgD, source_type := "kafka", frequency := "D",
                  last_receive := none, last_receive_time := none, timeout := dtEnd15 } :=
  ⟨(c7_construction_validation "test" msgD "kafka" "not_valid" none none dtEnd15).1
     (Or.inl (by decide)),
   (c7_construction_validation "test" msgD "kafka" "D" none none dtEnd15).2
     (by decide) (by decide)⟩

/-- A fresh awaiting row of sensor test. -/
def recAwaitD : EventMessage :=
  { name := "test", msg := msgD, source_type := "kafka", frequency := "D",
    last_receive := none, last_receive_time := none, timeout := dtEnd15 }

/-- C8 counterexample: two update_on_receive calls with identical
caller-supplied arguments but different internal clock readings produce
different stores, so the stored receipt time is not a caller-supplied now
and the operation does depend on the wall clock read internally. -/
theorem c8_internal_clock_dependence :
    EventMessageCRUD.update_on_receive "test" msgD (some (PVal.pnum 1)) dt15 [recAwaitD] ≠
      EventMessageCRUD.update_on_receive "test" msgD (some (PVal.pnum 1)) dt16 [recAwaitD] := by
  decide

/-- C8 (amended): the receipt time update_on_receive stores on every matched
record is the value the internal clock returns at the moment of the call;
the Python method takes no now argument from the caller. -/
theorem c8_receipt_time_is_internal_now (sn : String) (m : Msg) (p : Option PVal)
    (now_clock : DT) (db : DB) (i : Nat) (hi : i < db.length)
    (hmatch : db[i].name = sn ∧ canon db[i].msg = canon m) :
    ((EventMessageCRUD.update_on_receive sn m p now_clock db)[i]?).map
        (fun r => r.last_receive_time) = some (some now_clock) := by
  rw [upd_getElem _ _ _ _ _ i hi]
  have hcond : (db[i].name == sn && msgEq db[i].msg m) = true := by
    simp [hmatch.1, msgEq, hmatch.2]
  rw [hcond]
  simp [updRec]

theorem c8_receipt_time_is_internal_now_witness :
    ((EventMessageCRUD.update_on_receive "test" msgD (some (PVal.pnum 1)) dt16
        [recAwaitD])[0]?).map (fun r => r.last_receive_time) = some (some dt16) :=
  c8_receipt_time_is_internal_now "test" msgD (some (PVal.pnum 1)) dt16 [recAwaitD] 0
    (by decide) (by decide)

/-- A satisfied row whose stored payload is the zero-equivalent value 0. -/
def recFalsy : EventMessage :=
  { name := "test", msg := msgD, source_type := "kafka", frequency := "D",
    last_receive := some (PVal.pnum 0), last_receive_time := some dt15, timeout := dtEnd15 }

/-- C9: a record whose payload is a zero-equivalent but non-null value and
whose receipt time is set counts as satisfied: it is never the record that
makes status report NOT_ALL_RECEIVED, and it never contributes its pattern
to get_unreceived_msgs. -/
theorem c9_falsy_payload_satisfied (sn : String) (db : DB) (r : EventMessage)
    (hr : r ∈ db) (hn : r.name = sn) (v : PVal) (hv : r.last_receive = some v)
    (hf : PVal.falsy v = true) (t : DT) (ht : r.last_receive_time = some t) :
    unsatisfiedB r = false ∧ awaitingB r = false ∧
    (EventMessageCRUD.status sn db = DBStatus.NOT_ALL_RECEIVED →
      ∃ x ∈ db, x.name = sn ∧ unsatisfiedB x = true ∧ x ≠ r) ∧
    (∀ c ∈ EventMessageCRUD.get_unreceived_msgs sn db,
      ∃ x ∈ db, x.name = sn ∧ awaitingB x = true ∧ x.msg = c ∧ x ≠ r) := by
  have hu : unsatisfiedB r = false := by simp [unsatisfiedB, hv, ht]
  have ha : awaitingB r = false := by simp [awaitingB, hv]
  refine ⟨hu, ha, ?_, ?_⟩
  · intro hs
    obtain ⟨x, hx, hxn, hxu⟩ := (status_not_all sn db).mp hs
    refine ⟨x, hx, hxn, hxu, ?_⟩
    intro he
    rw [he, hu] at hxu
    cases hxu
  · intro c hc
    obtain ⟨x, hx, hxn, hxa, hxm⟩ := (mem_unreceived sn db c).mp hc
    refine ⟨x, hx, hxn, hxa, hxm, ?_⟩
    intro he
    rw [he, ha] at hxa
    cases hxa

theorem c9_falsy_payload_satisfied_witness :
    unsatisfiedB recFalsy = false ∧ awaitingB recFalsy = false :=
  ⟨(c9_falsy_payload_satisfied "test" [recFalsy] recFalsy (by decide) (by decide)
      (PVal.pnum 0) (by decide) (by decide) dt15 (by decide)).1,
   (c9_falsy_payload_satisfied "test" [recFalsy] recFalsy (by decide) (by decide)
      (PVal.pnum 0) (by decide) (by decide) dt15 (by decide)).2.1⟩
